import Mathlib

/-!
Verification of the RoaringBot SMA crossover signal engine.

The repository computes a BUY/SELL/HOLD trading signal from a series of
closing prices via a dual simple-moving-average crossover rule.  The core
engine is `compute_signal` in `sma_signal_runner.py`; near-duplicate
variants live in `algo_runner.py` (`compute_sma_signals`) and `main.py`
(`compute_sma_signals`).  Closing prices are embedded as rationals,
Python ints as `Int`, a raised Python exception as `Except.error`, and a
pandas NaN cell as `none`.

pandas semantics embedded here, for `Series.rolling(n).mean()`:
  * `n < 0` raises `ValueError` ("window must be an integer 0 or greater");
  * `n = 0` produces NaN at every index (empty windows);
  * `n ≥ 1` produces NaN at indices `i < n - 1` and otherwise the
    arithmetic mean of the `n` cells ending at index `i` (NaN if any cell
    in the window is NaN, since `min_periods` defaults to the window size).
`DataFrame.dropna()` keeps exactly the rows in which no column holds NaN,
and `df.iloc[-2]` raises `IndexError` when the frame has fewer than 2 rows.
-/

instance {ε α : Type} [DecidableEq ε] [DecidableEq α] : DecidableEq (Except ε α) :=
  fun x y =>
    match x, y with
    | .ok a, .ok b => if h : a = b then .isTrue (by simp [h]) else .isFalse (by simp [h])
    | .error a, .error b => if h : a = b then .isTrue (by simp [h]) else .isFalse (by simp [h])
    | .ok _, .error _ => .isFalse (by simp)
    | .error _, .ok _ => .isFalse (by simp)

/-- The trailing simple moving average of `closes` over a window of `n`
bars ending at index `i` (meaningful for `1 ≤ n ≤ i + 1`). -/
def smaAt (closes : List ℚ) (n i : ℕ) : ℚ :=
  (((closes.take (i + 1)).drop (i + 1 - n)).sum) / (n : ℚ)

/-- Entry `i` of `closes.rolling(n).mean()`: `none` (NaN) where no full
window exists, the trailing mean otherwise. -/
def smaAt? (closes : List ℚ) (n i : ℕ) : Option ℚ :=
  if 1 ≤ n ∧ n ≤ i + 1 then some (smaAt closes n i) else none

/-- The rows surviving `df.dropna()` after the two SMA columns have been
added to a frame whose `close` column is `closes`: for each index where
both SMAs are defined, the triple `(close, SMA_SHORT, SMA_LONG)`. -/
def alignedRows (closes : List ℚ) (s l : ℕ) : List (ℚ × ℚ × ℚ) :=
  (List.range closes.length).filterMap fun i =>
    (smaAt? closes s i).bind fun a =>
      (smaAt? closes l i).map fun b => (closes.getD i 0, a, b)

/-- The two-sided crossover rule shared verbatim by all three engine
variants: non-strict comparison on the second-to-last point, strict on
the last. -/
def crossoverSignal (pS pL tS tL : ℚ) : String :=
  if pS ≤ pL ∧ tS > tL then "BUY"
  else if pS ≥ pL ∧ tS < tL then "SELL"
  else "HOLD"

namespace SmaSignalRunner

/-- Embedding of `sma_signal_runner.compute_signal(df, short_n, long_n)`, restricted to
a frame whose only data is the `close` column (the general frame-level
version with caller-visible effects is `compute_signal_df` below).
`Except.error` models a raised exception. -/
def compute_signal (closes : List ℚ) (short_n long_n : ℤ) : Except String String :=
  if closes.isEmpty ∨ (closes.length : ℤ) < max short_n long_n then .ok "HOLD"
  else if short_n < 0 ∨ long_n < 0 then
    .error "ValueError: window must be an integer 0 or greater"
  else
    let al := alignedRows closes short_n.toNat long_n.toNat
    if al.length < 2 then .ok "HOLD"
    else
      let prev := al.getD (al.length - 2) (0, 0, 0)
      let lst := al.getD (al.length - 1) (0, 0, 0)
      .ok (crossoverSignal prev.2.1 prev.2.2 lst.2.1 lst.2.2)

end SmaSignalRunner

namespace MainPy

/-- Embedding of `compute_sma_signals(df, short_n, long_n)` from `main.py`, projected to
the `signal` field of its result dict; `.ok none` models the Python
`None` it returns when the series is empty or fewer than 2 aligned rows
remain after `dropna` (the `prev`/`last`/`df_tail` diagnostics of the
dict are not modelled). -/
def compute_sma_signals (closes : List ℚ) (short_n long_n : ℤ) :
    Except String (Option String) :=
  if closes.isEmpty then .ok none
  else if short_n < 0 ∨ long_n < 0 then
    .error "ValueError: window must be an integer 0 or greater"
  else
    let al := alignedRows closes short_n.toNat long_n.toNat
    if al.length < 2 then .ok none
    else
      let prev := al.getD (al.length - 2) (0, 0, 0)
      let lst := al.getD (al.length - 1) (0, 0, 0)
      .ok (some (crossoverSignal prev.2.1 prev.2.2 lst.2.1 lst.2.2))

end MainPy

/-- A pandas `DataFrame` of numeric columns: column order is significant,
every column has the same number of rows, and a `none` cell is a NaN. -/
structure DataFrame where
  cols : List (String × List (Option ℚ))
deriving DecidableEq, Repr

namespace DataFrame

/-- Model of `df.columns`. -/
def colNames (df : DataFrame) : List String := df.cols.map Prod.fst

/-- Model of `name in df.columns`. -/
def hasCol (df : DataFrame) (name : String) : Bool := df.colNames.contains name

/-- Model of `df[name]`, as an `Option` so that a missing column models `KeyError`. -/
def getCol (df : DataFrame) (name : String) : Option (List (Option ℚ)) :=
  (df.cols.find? (fun c => c.1 == name)).map Prod.snd

/-- Model of `len(df)`. -/
def nRows (df : DataFrame) : ℕ := ((df.cols.head?).map (fun c => c.2.length)).getD 0

/-- Model of `df.empty` (true when the frame has no rows or no columns). -/
def isUnpopulated (df : DataFrame) : Bool := df.nRows = 0

/-- Model of `df[name] = vals`: replace the column in place if present, else append
it as the last column. -/
def setCol (df : DataFrame) (name : String) (vals : List (Option ℚ)) : DataFrame :=
  if df.hasCol name then ⟨df.cols.map (fun c => if c.1 == name then (c.1, vals) else c)⟩
  else ⟨df.cols ++ [(name, vals)]⟩

/-- The cell of column `name` at row `i` (`none` when out of range or NaN). -/
def cell (df : DataFrame) (name : String) (i : ℕ) : Option ℚ :=
  ((df.getCol name).getD []).getD i none

/-- Row `i` as the record `to_dict` would produce. -/
def row (df : DataFrame) (i : ℕ) : List (String × Option ℚ) :=
  df.cols.map (fun c => (c.1, c.2.getD i none))

/-- Model of `df.dropna()`: keep exactly the rows in which every column is non-NaN. -/
def dropna (df : DataFrame) : DataFrame :=
  let keep := (List.range df.nRows).filter
    (fun i => df.cols.all (fun c => (c.2.getD i none).isSome))
  ⟨df.cols.map (fun c => (c.1, keep.map (fun i => c.2.getD i none)))⟩

end DataFrame

/-- Model of `cells.rolling(n).mean()` over a column that may itself contain NaN:
with `min_periods` defaulting to the window size, the mean at `i` is NaN
unless a full window of `n` non-NaN cells ends at `i` (and `n ≥ 1`). -/
def rollMeanCells (cells : List (Option ℚ)) (n : ℕ) : List (Option ℚ) :=
  (List.range cells.length).map fun i =>
    if 1 ≤ n ∧ n ≤ i + 1 then
      let w := (cells.take (i + 1)).drop (i + 1 - n)
      if w.all Option.isSome then some ((w.reduceOption).sum / (n : ℚ)) else none
    else none

/-- The single-column frame holding a fully populated `close` column. -/
def mkDF (closes : List ℚ) : DataFrame := ⟨[("close", closes.map some)]⟩

namespace SmaSignalRunner

/-- Embedding of `sma_signal_runner.compute_signal(df, short_n, long_n)` on an
arbitrary frame, returned together with the state of the frame owned by the caller
after the call.  The Python body rebinds `df` to `df.copy()` before
assigning the SMA columns, so every branch hands the frame of the caller back
unchanged. -/
def compute_signal_df (df : DataFrame) (short_n long_n : ℤ) :
    Except String String × DataFrame :=
  if df.isUnpopulated ∨ (df.nRows : ℤ) < max short_n long_n then (.ok "HOLD", df)
  else
    match df.getCol "close" with
    | none => (.error "KeyError: close", df)
    | some closeCells =>
      if short_n < 0 ∨ long_n < 0 then
        (.error "ValueError: window must be an integer 0 or greater", df)
      else
        let w := (df.setCol "SMA_SHORT" (rollMeanCells closeCells short_n.toNat)).setCol
          "SMA_LONG" (rollMeanCells closeCells long_n.toNat)
        let a := w.dropna
        if a.nRows < 2 then (.ok "HOLD", df)
        else
          let pS := (a.cell "SMA_SHORT" (a.nRows - 2)).getD 0
          let pL := (a.cell "SMA_LONG" (a.nRows - 2)).getD 0
          let tS := (a.cell "SMA_SHORT" (a.nRows - 1)).getD 0
          let tL := (a.cell "SMA_LONG" (a.nRows - 1)).getD 0
          (.ok (crossoverSignal pS pL tS tL), df)

/-- Embedding of `sma_signal_runner.main()`: the payload fields extracted from stdin,
with `.error` standing for any exception raised while reading, parsing
or coercing them (all are caught and turn into a printed `HOLD`).  The
returned string is what the process prints to stdout. -/
def main_stdout (input : Except String (ℤ × ℤ × DataFrame)) : String :=
  match input with
  | .error _ => "HOLD"
  | .ok (short_n, long_n, df) =>
    if ¬ df.hasCol "close" then "HOLD"
    else
      match (compute_signal_df df short_n long_n).1 with
      | .ok sig => sig
      | .error _ => "HOLD"

end SmaSignalRunner

/-- The result dict of `algo_runner.compute_sma_signals`; fields the
Python dict omits on the short-data path are `none` / `[]` here. -/
structure ARResult where
  signal : String
  reason : Option String
  latest_close : Option ℚ
  sma_short : Option ℚ
  sma_long : Option ℚ
  recent : List (List (String × Option ℚ))
deriving DecidableEq, Repr

namespace AlgoRunner

/-- Embedding of `algo_runner.compute_sma_signals(df, short_n, long_n)` with the
frame of the caller after the call.  Unlike the runner above, the SMA columns
are assigned on the frame of the caller itself (`df.dropna().copy()` only
rebinds the local name afterwards), and there is no guard on the number
of aligned rows before `df.iloc[-2]`. -/
def compute_sma_signals_df (df : DataFrame) (short_n long_n : ℤ) :
    Except String ARResult × DataFrame :=
  if df.isUnpopulated ∨ (df.nRows : ℤ) < long_n then
    (.ok ⟨"HOLD", some "Not enough data", none, none, none, []⟩, df)
  else
    match df.getCol "close" with
    | none => (.error "KeyError: close", df)
    | some closeCells =>
      if short_n < 0 then
        (.error "ValueError: window must be an integer 0 or greater", df)
      else
        let df1 := df.setCol "SMA_SHORT" (rollMeanCells closeCells short_n.toNat)
        if long_n < 0 then
          (.error "ValueError: window must be an integer 0 or greater", df1)
        else
          let df2 := df1.setCol "SMA_LONG" (rollMeanCells closeCells long_n.toNat)
          let a := df2.dropna
          if a.nRows < 2 then
            (.error "IndexError: single positional indexer is out-of-bounds", df2)
          else
            let pS := (a.cell "SMA_SHORT" (a.nRows - 2)).getD 0
            let pL := (a.cell "SMA_LONG" (a.nRows - 2)).getD 0
            let tS := (a.cell "SMA_SHORT" (a.nRows - 1)).getD 0
            let tL := (a.cell "SMA_LONG" (a.nRows - 1)).getD 0
            (.ok ⟨crossoverSignal pS pL tS tL, none,
                  a.cell "close" (a.nRows - 1),
                  a.cell "SMA_SHORT" (a.nRows - 1),
                  a.cell "SMA_LONG" (a.nRows - 1),
                  ((List.range a.nRows).drop (a.nRows - 5)).map (fun i => a.row i)⟩,
             df2)

/-- What `algo_runner.main()` prints: either a JSON object that carries a
`signal` key, or — on the exception path — a bare `{"error": ...}` object. -/
inductive MainOut where
  | res (r : ARResult) (symbol : String)
  | noData
  | errorOnly (msg : String)
deriving DecidableEq, Repr

/-- Whether the printed object contains a `signal` key. -/
def MainOut.hasSignalKey : MainOut → Bool
  | .res _ _ => true
  | .noData => true
  | .errorOnly _ => false

/-- Embedding of `algo_runner.main()`: parse stdin (`.error` = any exception while
doing so), emit the no-data HOLD object for an unpopulated frame, and
otherwise print the engine result — or `{"error": str(e)}` when the
engine raises. -/
def main_stdout (input : Except String (String × ℤ × ℤ × DataFrame)) : MainOut :=
  match input with
  | .error e => .errorOnly e
  | .ok (symbol, short_n, long_n, df) =>
    if df.isUnpopulated then .noData
    else
      match (compute_sma_signals_df df short_n long_n).1 with
      | .ok r => .res r symbol
      | .error e => .errorOnly e

end AlgoRunner

example : SmaSignalRunner.compute_signal [10, 10, 10, 10, 10, 10, 10, 10, 10, 1, 20] 2 5
    = .ok "BUY" := by with_unfolding_all decide

example : SmaSignalRunner.compute_signal [1, 2, 3] 2 3 = .ok "HOLD" := by with_unfolding_all decide

example : SmaSignalRunner.compute_signal [5] (-1) (-1)
    = .error "ValueError: window must be an integer 0 or greater" := by with_unfolding_all decide

example : MainPy.compute_sma_signals [1, 2, 3] 2 3 = .ok none := by with_unfolding_all decide

/-- A `filterMap` over `range k` whose function fires exactly from a
threshold index `t` on is the image of `range' t (k - t)`. -/
lemma filterMap_range_threshold {α : Type} (g : ℕ → α) (t k : ℕ) :
    (List.range k).filterMap (fun i => if t ≤ i then some (g i) else none)
      = (List.range' t (k - t)).map g := by
  induction k with
  | zero => simp
  | succ k ih =>
    rw [List.range_succ, List.filterMap_append, ih]
    by_cases h : t ≤ k
    · have hk : k + 1 - t = (k - t) + 1 := by omega
      rw [hk, List.range'_concat, List.map_append]
      have hkk : t + 1 * (k - t) = k := by omega
      simp [h, hkk]
    · have h1 : k + 1 - t = 0 := by omega
      have h2 : k - t = 0 := by omega
      simp [h1, h2, h]

/-- With positive windows, the aligned rows are exactly the indices from
`max s l - 1` on, carrying the close and the two trailing means. -/
lemma alignedRows_eq (closes : List ℚ) (s l : ℕ) (hs : 1 ≤ s) (hl : 1 ≤ l) :
    alignedRows closes s l
      = (List.range' (max s l - 1) (closes.length - (max s l - 1))).map
          (fun i => (closes.getD i 0, smaAt closes s i, smaAt closes l i)) := by
  unfold alignedRows
  rw [show (fun i => (smaAt? closes s i).bind fun a =>
        (smaAt? closes l i).map fun b => (closes.getD i 0, a, b))
      = (fun i => if max s l - 1 ≤ i
          then some (closes.getD i 0, smaAt closes s i, smaAt closes l i) else none) from ?_]
  · exact filterMap_range_threshold _ _ _
  · funext i
    by_cases h : max s l - 1 ≤ i
    · have h1 : 1 ≤ s ∧ s ≤ i + 1 := ⟨hs, by omega⟩
      have h2 : 1 ≤ l ∧ l ≤ i + 1 := ⟨hl, by omega⟩
      rw [if_pos h]
      unfold smaAt?
      rw [if_pos h1, if_pos h2]
      rfl
    · rw [if_neg h]
      rcases (by omega : ¬ (s ≤ i + 1) ∨ ¬ (l ≤ i + 1)) with h1 | h1
      · unfold smaAt?
        rw [if_neg (by omega : ¬ (1 ≤ s ∧ s ≤ i + 1))]
        rfl
      · unfold smaAt?
        rw [if_neg (by omega : ¬ (1 ≤ l ∧ l ≤ i + 1))]
        cases hv : (if 1 ≤ s ∧ s ≤ i + 1 then some (smaAt closes s i) else none) <;> rfl

/-- Number of aligned rows. -/
lemma alignedRows_length (closes : List ℚ) (s l : ℕ) (hs : 1 ≤ s) (hl : 1 ≤ l) :
    (alignedRows closes s l).length = closes.length - (max s l - 1) := by
  rw [alignedRows_eq closes s l hs hl, List.length_map, List.length_range']

/-- The last aligned row is the row of the last index of the series. -/
lemma alignedRows_getD_last (closes : List ℚ) (s l : ℕ) (hs : 1 ≤ s) (hl : 1 ≤ l)
    (h2 : 2 ≤ (alignedRows closes s l).length) :
    (alignedRows closes s l).getD ((alignedRows closes s l).length - 1) (0, 0, 0)
      = (closes.getD (closes.length - 1) 0,
         smaAt closes s (closes.length - 1), smaAt closes l (closes.length - 1)) := by
  have hlen := alignedRows_length closes s l hs hl
  have hm : 1 ≤ max s l := le_trans hs (le_max_left s l)
  have hL : max s l + 1 ≤ closes.length := by omega
  rw [alignedRows_eq closes s l hs hl] at h2 ⊢
  rw [List.getD_eq_getElem _ _ (by simpa using by omega)]
  rw [List.getElem_map, List.getElem_range']
  rw [show max s l - 1 + 1 * (((List.range' (max s l - 1)
      (closes.length - (max s l - 1))).map
        (fun i => (closes.getD i 0, smaAt closes s i, smaAt closes l i))).length - 1)
      = closes.length - 1 from by
    simp only [List.length_map, List.length_range']
    omega]

/-- The second-to-last aligned row is the row of the second-to-last index. -/
lemma alignedRows_getD_prev (closes : List ℚ) (s l : ℕ) (hs : 1 ≤ s) (hl : 1 ≤ l)
    (h2 : 2 ≤ (alignedRows closes s l).length) :
    (alignedRows closes s l).getD ((alignedRows closes s l).length - 2) (0, 0, 0)
      = (closes.getD (closes.length - 2) 0,
         smaAt closes s (closes.length - 2), smaAt closes l (closes.length - 2)) := by
  have hlen := alignedRows_length closes s l hs hl
  have hm : 1 ≤ max s l := le_trans hs (le_max_left s l)
  have hL : max s l + 1 ≤ closes.length := by omega
  rw [alignedRows_eq closes s l hs hl] at h2 ⊢
  rw [List.getD_eq_getElem _ _ (by simpa using by omega)]
  rw [List.getElem_map, List.getElem_range']
  rw [show max s l - 1 + 1 * (((List.range' (max s l - 1)
      (closes.length - (max s l - 1))).map
        (fun i => (closes.getD i 0, smaAt closes s i, smaAt closes l i))).length - 2)
      = closes.length - 2 from by
    simp only [List.length_map, List.length_range']
    omega]

/-- The crossover rule answers `BUY` exactly under the documented
at-or-below-then-strictly-above condition. -/
lemma crossoverSignal_eq_BUY (a b c d : ℚ) :
    crossoverSignal a b c d = "BUY" ↔ (a ≤ b ∧ d < c) := by
  unfold crossoverSignal
  split_ifs with h1 h2
  · simpa using h1
  · constructor
    · intro h
      exact absurd h (by decide)
    · intro h
      exact absurd (lt_trans h2.2 h.2) (lt_irrefl _)
  · constructor
    · intro h
      exact absurd h (by decide)
    · intro h
      exact absurd h h1

/-- The crossover rule answers `SELL` exactly under the documented
at-or-above-then-strictly-below condition. -/
lemma crossoverSignal_eq_SELL (a b c d : ℚ) :
    crossoverSignal a b c d = "SELL" ↔ (b ≤ a ∧ c < d) := by
  unfold crossoverSignal
  split_ifs with h1 h2
  · constructor
    · intro h
      exact absurd h (by decide)
    · intro h
      exact absurd (lt_trans h.2 h1.2) (lt_irrefl _)
  · simpa using h2
  · constructor
    · intro h
      exact absurd h (by decide)
    · intro h
      exact absurd h h2

/-- The crossover rule answers `HOLD` exactly when neither cross fires. -/
lemma crossoverSignal_eq_HOLD (a b c d : ℚ) :
    crossoverSignal a b c d = "HOLD" ↔ (¬ (a ≤ b ∧ d < c) ∧ ¬ (b ≤ a ∧ c < d)) := by
  unfold crossoverSignal
  split_ifs with h1 h2
  · constructor
    · intro h
      exact absurd h (by decide)
    · intro h
      exact absurd h1 (by simpa using h.1)
  · constructor
    · intro h
      exact absurd h (by decide)
    · intro h
      exact absurd h2 (by simpa using h.2)
  · constructor
    · intro _
      exact ⟨by simpa using h1, by simpa using h2⟩
    · intro _
      rfl

/-- The crossover rule never invents a fourth answer. -/
lemma crossoverSignal_mem (a b c d : ℚ) :
    crossoverSignal a b c d = "BUY" ∨ crossoverSignal a b c d = "SELL"
      ∨ crossoverSignal a b c d = "HOLD" := by
  unfold crossoverSignal
  split_ifs <;> simp

/-- With positive windows and at least two aligned rows, the runner
engine reduces to the crossover rule applied to the SMAs at the last two
indices of the series. -/
lemma compute_signal_char (closes : List ℚ) (s l : ℤ) (hs : 1 ≤ s) (hl : 1 ≤ l)
    (h2 : 2 ≤ (alignedRows closes s.toNat l.toNat).length) :
    SmaSignalRunner.compute_signal closes s l
      = .ok (crossoverSignal
          (smaAt closes s.toNat (closes.length - 2))
          (smaAt closes l.toNat (closes.length - 2))
          (smaAt closes s.toNat (closes.length - 1))
          (smaAt closes l.toNat (closes.length - 1))) := by
  have hs1 : 1 ≤ s.toNat := by omega
  have hl1 : 1 ≤ l.toNat := by omega
  have hlen := alignedRows_length closes s.toNat l.toNat hs1 hl1
  have hm : 1 ≤ max s.toNat l.toNat := le_trans hs1 (le_max_left _ _)
  have hL : max s.toNat l.toNat + 1 ≤ closes.length := by omega
  have hmax : max s l = ((max s.toNat l.toNat : ℕ) : ℤ) := by
    rcases le_total s l with h | h
    · rw [max_eq_right h, max_eq_right (by omega : s.toNat ≤ l.toNat)]
      omega
    · rw [max_eq_left h, max_eq_left (by omega : l.toNat ≤ s.toNat)]
      omega
  have hguard : ¬ (closes.isEmpty ∨ (closes.length : ℤ) < max s l) := by
    rw [hmax]
    rcases closes with _ | ⟨c, cs⟩
    · simp at hL
    · simp only [List.isEmpty_cons]
      push_neg
      refine ⟨by simp, by push_cast; omega⟩
  have hneg : ¬ (s < 0 ∨ l < 0) := by omega
  simp only [SmaSignalRunner.compute_signal]
  rw [if_neg hguard, if_neg hneg, if_neg (by omega : ¬ (alignedRows closes s.toNat l.toNat).length < 2)]
  rw [alignedRows_getD_prev closes s.toNat l.toNat hs1 hl1 h2,
      alignedRows_getD_last closes s.toNat l.toNat hs1 hl1 h2]

/-- The same characterization for the `main.py` variant, which returns the
signal inside its result dict. -/
lemma mainpy_char (closes : List ℚ) (s l : ℤ) (hs : 1 ≤ s) (hl : 1 ≤ l)
    (h2 : 2 ≤ (alignedRows closes s.toNat l.toNat).length) :
    MainPy.compute_sma_signals closes s l
      = .ok (some (crossoverSignal
          (smaAt closes s.toNat (closes.length - 2))
          (smaAt closes l.toNat (closes.length - 2))
          (smaAt closes s.toNat (closes.length - 1))
          (smaAt closes l.toNat (closes.length - 1)))) := by
  have hs1 : 1 ≤ s.toNat := by omega
  have hl1 : 1 ≤ l.toNat := by omega
  have hlen := alignedRows_length closes s.toNat l.toNat hs1 hl1
  have hm : 1 ≤ max s.toNat l.toNat := le_trans hs1 (le_max_left _ _)
  have hL : max s.toNat l.toNat + 1 ≤ closes.length := by omega
  have hguard : ¬ (closes.isEmpty = true) := by
    rcases closes with _ | ⟨c, cs⟩
    · simp at hL
    · simp
  have hneg : ¬ (s < 0 ∨ l < 0) := by omega
  simp only [MainPy.compute_sma_signals]
  rw [if_neg hguard, if_neg hneg, if_neg (by omega : ¬ (alignedRows closes s.toNat l.toNat).length < 2)]
  rw [alignedRows_getD_prev closes s.toNat l.toNat hs1 hl1 h2,
      alignedRows_getD_last closes s.toNat l.toNat hs1 hl1 h2]

/-- With a non-positive window length, no SMA is ever defined, so no row
survives `dropna`. -/
lemma alignedRows_eq_nil_of_zero (closes : List ℚ) (s l : ℕ) (h : s = 0 ∨ l = 0) :
    alignedRows closes s l = [] := by
  unfold alignedRows
  rw [List.filterMap_eq_nil_iff]
  intro i _
  rcases h with h | h <;> subst h
  · simp [smaAt?]
  · have hnone : smaAt? closes 0 i = none := by simp [smaAt?]
    rw [hnone]
    cases smaAt? closes s i <;> rfl

/-- When the two windows coincide, every aligned row carries the same
short and long SMA. -/
lemma alignedRows_self (closes : List ℚ) (t : ℕ) (r : ℚ × ℚ × ℚ)
    (hr : r ∈ alignedRows closes t t) : r.2.1 = r.2.2 := by
  unfold alignedRows at hr
  rw [List.mem_filterMap] at hr
  obtain ⟨i, _, hi⟩ := hr
  cases h : smaAt? closes t i with
  | none => rw [h] at hi; simp at hi
  | some a =>
    rw [h] at hi
    have hr2 : (closes.getD i 0, a, a) = r := by simpa using hi
    rw [← hr2]

/-- A trailing mean only looks at the window ending at its index, so it
is unchanged by chopping a prefix off the series (with the index shifted
accordingly), as long as the window still fits. -/
lemma smaAt_drop (closes : List ℚ) (d n i : ℕ) (hn : n ≤ i + 1) :
    smaAt (closes.drop d) n i = smaAt closes n (d + i) := by
  unfold smaAt
  congr 2
  rw [List.take_drop, List.drop_drop]
  rw [show d + (i + 1 - n) = d + i + 1 - n from by omega]
  rw [show d + (i + 1) = d + i + 1 from by omega]

/-- `sma_signal_runner.compute_signal` copies its frame before touching
it: the frame of the caller is returned unchanged on every path. -/
lemma compute_signal_df_frame (df : DataFrame) (s l : ℤ) :
    (SmaSignalRunner.compute_signal_df df s l).2 = df := by
  unfold SmaSignalRunner.compute_signal_df
  split
  · rfl
  · split
    · rfl
    · split
      · rfl
      · dsimp only
        split
        · rfl
        · rfl

/-- Any signal the runner engine returns without raising is one of the
three categorical values. -/
lemma compute_signal_df_ok_mem (df : DataFrame) (s l : ℤ) (sig : String)
    (h : (SmaSignalRunner.compute_signal_df df s l).1 = .ok sig) :
    sig = "BUY" ∨ sig = "SELL" ∨ sig = "HOLD" := by
  unfold SmaSignalRunner.compute_signal_df at h
  split at h
  · right; right
    simpa using h.symm
  · split at h
    · simp at h
    · split at h
      · simp at h
      · dsimp only at h
        split at h
        · right; right
          simpa using h.symm
        · obtain rfl : crossoverSignal _ _ _ _ = sig := by simpa using h
          exact crossoverSignal_mem _ _ _ _

/-- The length guard alone forces `HOLD`. -/
lemma compute_signal_guard_hold (closes : List ℚ) (s l : ℤ)
    (h : closes.isEmpty = true ∨ (closes.length : ℤ) < max s l) :
    SmaSignalRunner.compute_signal closes s l = .ok "HOLD" := by
  unfold SmaSignalRunner.compute_signal
  rw [if_pos h]

/-- The crossover rule on a row pair whose short and long SMAs coincide
pointwise is always `HOLD`. -/
lemma crossoverSignal_diag (a c : ℚ) : crossoverSignal a a c c = "HOLD" :=
  (crossoverSignal_eq_HOLD a a c c).mpr
    ⟨fun h => absurd h.2 (lt_irrefl c), fun h => absurd h.2 (lt_irrefl c)⟩

/-- A series of length exactly `long` passes the length guard but leaves
a single aligned row, so the engine holds. -/
lemma exact_window_hold (closes : List ℚ) (s l : ℤ) (hs : 1 ≤ s) (hsl : s ≤ l)
    (hlen : (closes.length : ℤ) = l) :
    ¬ (closes.isEmpty = true ∨ (closes.length : ℤ) < max s l)
    ∧ (alignedRows closes s.toNat l.toNat).length = 1
    ∧ SmaSignalRunner.compute_signal closes s l = .ok "HOLD" := by
  have hs1 : 1 ≤ s.toNat := by omega
  have hl1 : 1 ≤ l.toNat := by omega
  have hmax : max s.toNat l.toNat = l.toNat := max_eq_right (by omega)
  have hlenN : closes.length = l.toNat := by omega
  have hal : (alignedRows closes s.toNat l.toNat).length = 1 := by
    rw [alignedRows_length closes s.toNat l.toNat hs1 hl1, hmax, hlenN]
    omega
  have hguard : ¬ (closes.isEmpty = true ∨ (closes.length : ℤ) < max s l) := by
    rw [max_eq_right hsl]
    push_neg
    constructor
    · rcases closes with _ | ⟨c, cs⟩
      · simp at hlenN
        omega
      · simp
    · omega
  refine ⟨hguard, hal, ?_⟩
  unfold SmaSignalRunner.compute_signal
  rw [if_neg hguard, if_neg (by omega : ¬ (s < 0 ∨ l < 0))]
  dsimp only
  rw [if_pos (by omega : (alignedRows closes s.toNat l.toNat).length < 2)]

/-- When `algo_runner.compute_sma_signals` gets past its guard with
non-negative windows, it has assigned the two SMA columns on the
frame of the caller. -/
lemma algo_runner_mutation (df : DataFrame) (s l : ℤ) (cells : List (Option ℚ))
    (hcol : df.getCol "close" = some cells)
    (hguard : ¬ (df.isUnpopulated = true ∨ (df.nRows : ℤ) < l))
    (hs : 0 ≤ s) (hl : 0 ≤ l) :
    (AlgoRunner.compute_sma_signals_df df s l).2
      = (df.setCol "SMA_SHORT" (rollMeanCells cells s.toNat)).setCol
          "SMA_LONG" (rollMeanCells cells l.toNat) := by
  have h1 : ¬ s < 0 := by omega
  have h2 : ¬ l < 0 := by omega
  simp only [AlgoRunner.compute_sma_signals_df, if_neg hguard, hcol, if_neg h1, if_neg h2]
  split <;> rfl

/-- Claim C1: for every price series and window pair with at least 2
aligned points (both SMAs defined), the engine returns BUY iff the short
SMA was at-or-below the long SMA at the second-to-last aligned point and
strictly above it at the last, SELL iff at-or-above then strictly below,
and HOLD otherwise — non-strict on prev, strict on last; the `main.py`
variant produces the same signal.  The last two aligned points sit at
series indices `length - 2` and `length - 1`. -/
theorem C1_crossover_rule (closes : List ℚ) (s l : ℤ) (hs : 1 ≤ s) (hl : 1 ≤ l)
    (h2 : 2 ≤ (alignedRows closes s.toNat l.toNat).length) :
    (SmaSignalRunner.compute_signal closes s l = .ok "BUY"
      ↔ (smaAt closes s.toNat (closes.length - 2) ≤ smaAt closes l.toNat (closes.length - 2)
          ∧ smaAt closes l.toNat (closes.length - 1) < smaAt closes s.toNat (closes.length - 1)))
    ∧ (SmaSignalRunner.compute_signal closes s l = .ok "SELL"
      ↔ (smaAt closes l.toNat (closes.length - 2) ≤ smaAt closes s.toNat (closes.length - 2)
          ∧ smaAt closes s.toNat (closes.length - 1) < smaAt closes l.toNat (closes.length - 1)))
    ∧ (SmaSignalRunner.compute_signal closes s l = .ok "HOLD"
      ↔ (¬ (smaAt closes s.toNat (closes.length - 2) ≤ smaAt closes l.toNat (closes.length - 2)
            ∧ smaAt closes l.toNat (closes.length - 1) < smaAt closes s.toNat (closes.length - 1))
          ∧ ¬ (smaAt closes l.toNat (closes.length - 2) ≤ smaAt closes s.toNat (closes.length - 2)
            ∧ smaAt closes s.toNat (closes.length - 1) < smaAt closes l.toNat (closes.length - 1))))
    ∧ MainPy.compute_sma_signals closes s l
        = (SmaSignalRunner.compute_signal closes s l).map some := by
  rw [compute_signal_char closes s l hs hl h2, mainpy_char closes s l hs hl h2]
  refine ⟨?_, ?_, ?_, rfl⟩
  · simpa using crossoverSignal_eq_BUY
      (smaAt closes s.toNat (closes.length - 2)) (smaAt closes l.toNat (closes.length - 2))
      (smaAt closes s.toNat (closes.length - 1)) (smaAt closes l.toNat (closes.length - 1))
  · simpa using crossoverSignal_eq_SELL
      (smaAt closes s.toNat (closes.length - 2)) (smaAt closes l.toNat (closes.length - 2))
      (smaAt closes s.toNat (closes.length - 1)) (smaAt closes l.toNat (closes.length - 1))
  · simpa using crossoverSignal_eq_HOLD
      (smaAt closes s.toNat (closes.length - 2)) (smaAt closes l.toNat (closes.length - 2))
      (smaAt closes s.toNat (closes.length - 1)) (smaAt closes l.toNat (closes.length - 1))

/-- Witness for C1 at a concrete upward cross: prev short SMA 1 equals
prev long SMA 1 (the non-strict boundary), last short SMA 3 exceeds last
long SMA 2, so the rule classifies BUY. -/
theorem C1_crossover_rule_witness :
    SmaSignalRunner.compute_signal [1, 1, 3] 1 2 = .ok "BUY" := by
  have h := C1_crossover_rule [1, 1, 3] 1 2 (by decide) (by decide)
    (by with_unfolding_all decide)
  exact h.1.mpr (by with_unfolding_all decide)

/-- Claim C5: the engine is a pure, deterministic function of the series
and the window pair: a second call on the state left by a first call
with identical arguments returns the identical result, and no state is
retained (the frame the caller holds after the call is the frame passed in). -/
theorem C5_deterministic_stateless (df : DataFrame) (s l : ℤ) :
    (SmaSignalRunner.compute_signal_df
        ((SmaSignalRunner.compute_signal_df df s l).2) s l).1
      = (SmaSignalRunner.compute_signal_df df s l).1
    ∧ (SmaSignalRunner.compute_signal_df df s l).2 = df := by
  constructor
  · rw [compute_signal_df_frame df s l]
  · exact compute_signal_df_frame df s l

/-- Claim C7: the concrete fixture of the spec — closes
`[10,10,10,10,10,10,10,10,10,1,20]` with windows 2 and 5 — produces BUY:
the short SMA crosses from below the long SMA (5.5 vs 8.2) to strictly
above it (10.5 vs 10.2) at the last aligned point. -/
theorem C7_buy_fixture :
    SmaSignalRunner.compute_signal [10, 10, 10, 10, 10, 10, 10, 10, 10, 1, 20] 2 5
      = .ok "BUY" := by
  with_unfolding_all decide

/-- Counterexample to C2 as stated: for the window pair (3,2) the series
`[1,1]` is shorter than `max(3,2)`, yet the cited `algo_runner` variant
— which guards only `len(df) < long_n` — runs on and raises `IndexError`
instead of returning HOLD. -/
theorem C2_counterexample :
    (([(1 : ℚ), 1].length : ℤ) < max 3 2)
      ∧ (AlgoRunner.compute_sma_signals_df (mkDF [1, 1]) 3 2).1
          = .error "IndexError: single positional indexer is out-of-bounds" := by
  with_unfolding_all decide

/-- Claim C2 (amended): for every window pair and every series that is
empty or shorter than `max(short, long)`, the `sma_signal_runner` engine
returns HOLD with no further computation and no error — though as a bare
string with no attached reason — while the `algo_runner` variant
attaches the reason "Not enough data" but guards only `len < long`, so
it only short-circuits under that weaker condition. -/
theorem C2_short_series_guard :
    (∀ (closes : List ℚ) (s l : ℤ), closes = [] ∨ (closes.length : ℤ) < max s l →
        SmaSignalRunner.compute_signal closes s l = .ok "HOLD")
    ∧ (∀ (closes : List ℚ) (s l : ℤ), closes = [] ∨ (closes.length : ℤ) < l →
        (AlgoRunner.compute_sma_signals_df (mkDF closes) s l).1
          = .ok ⟨"HOLD", some "Not enough data", none, none, none, []⟩) := by
  constructor
  · intro closes s l h
    apply compute_signal_guard_hold
    rcases h with h | h
    · left
      simp [h]
    · right
      exact h
  · intro closes s l h
    have hrows : (mkDF closes).nRows = closes.length := by
      simp [mkDF, DataFrame.nRows]
    have hg : (mkDF closes).isUnpopulated = true ∨ ((mkDF closes).nRows : ℤ) < l := by
      rcases h with h | h
      · left
        subst h
        simp [mkDF, DataFrame.isUnpopulated, DataFrame.nRows]
      · right
        rw [hrows]
        exact h
    unfold AlgoRunner.compute_sma_signals_df
    rw [if_pos hg]

/-- Witness for C2 at concrete inputs: the empty series and a 2-bar
series against windows (5,15). -/
theorem C2_short_series_guard_witness :
    SmaSignalRunner.compute_signal [] 5 15 = .ok "HOLD"
      ∧ (AlgoRunner.compute_sma_signals_df (mkDF [1, 2]) 5 15).1
          = .ok ⟨"HOLD", some "Not enough data", none, none, none, []⟩ :=
  ⟨C2_short_series_guard.1 [] 5 15 (Or.inl rfl),
   C2_short_series_guard.2 [1, 2] 5 15 (Or.inr (by decide))⟩

/-- Counterexample to C4 as stated: on 3 bars with windows (2,3) exactly
one aligned point exists, and the cited `algo_runner` variant executes
`df.iloc[-2]` out of bounds and raises `IndexError` instead of holding. -/
theorem C4_counterexample :
    (AlgoRunner.compute_sma_signals_df (mkDF [1, 2, 3]) 2 3).1
      = .error "IndexError: single positional indexer is out-of-bounds" := by
  with_unfolding_all decide

/-- Claim C4 (amended): when fewer than 2 aligned points exist,
the `sma_signal_runner` engine returns HOLD without reaching the
second-to-last-point access, and the `main.py` variant returns None; only
the `algo_runner` variant performs the access unguarded and raises. -/
theorem C4_aligned_guard :
    (∀ (closes : List ℚ) (s l : ℤ), 0 ≤ s → 0 ≤ l →
        (alignedRows closes s.toNat l.toNat).length < 2 →
        SmaSignalRunner.compute_signal closes s l = .ok "HOLD")
    ∧ (∀ (closes : List ℚ) (s l : ℤ), 0 ≤ s → 0 ≤ l →
        (alignedRows closes s.toNat l.toNat).length < 2 →
        MainPy.compute_sma_signals closes s l = .ok none) := by
  constructor
  · intro closes s l hs hl h2
    by_cases hg : closes.isEmpty = true ∨ (closes.length : ℤ) < max s l
    · exact compute_signal_guard_hold closes s l hg
    · unfold SmaSignalRunner.compute_signal
      rw [if_neg hg, if_neg (by omega : ¬ (s < 0 ∨ l < 0))]
      dsimp only
      rw [if_pos h2]
  · intro closes s l hs hl h2
    by_cases hg : closes.isEmpty = true
    · unfold MainPy.compute_sma_signals
      rw [if_pos hg]
    · unfold MainPy.compute_sma_signals
      rw [if_neg hg, if_neg (by omega : ¬ (s < 0 ∨ l < 0))]
      dsimp only
      rw [if_pos h2]

/-- Witness for C4 at the 3-bar fixture with windows (2,3): one aligned
point, so the guarded variants hold / return None. -/
theorem C4_aligned_guard_witness :
    SmaSignalRunner.compute_signal [1, 2, 3] 2 3 = .ok "HOLD"
      ∧ MainPy.compute_sma_signals [1, 2, 3] 2 3 = .ok none :=
  ⟨C4_aligned_guard.1 [1, 2, 3] 2 3 (by decide) (by decide)
      (by with_unfolding_all decide),
   C4_aligned_guard.2 [1, 2, 3] 2 3 (by decide) (by decide)
      (by with_unfolding_all decide)⟩

/-- Counterexample to C6 as stated: with negative window lengths and a
non-empty series that passes the length guard, the engine raises
`ValueError` from `rolling` — it does not return HOLD at all. -/
theorem C6_counterexample :
    SmaSignalRunner.compute_signal [5] (-1) (-1)
        = .error "ValueError: window must be an integer 0 or greater"
      ∧ SmaSignalRunner.compute_signal [5] (-1) (-1) ≠ .ok "HOLD" := by
  with_unfolding_all decide

/-- Claim C6 (amended): equal positive window lengths always yield HOLD
(the two SMA columns coincide, so neither strict comparison can fire);
zero-length windows yield HOLD through the alignment guard because a
zero-length rolling mean is NaN everywhere; but a negative window length
makes the engine raise `ValueError` from `rolling` whenever the length
guard passes (the stdin boundary then converts that to HOLD).  No path
divides by zero: a zero window never computes a mean at all. -/
theorem C6_degenerate_windows :
    (∀ (closes : List ℚ) (n : ℤ), 1 ≤ n →
        SmaSignalRunner.compute_signal closes n n = .ok "HOLD")
    ∧ (∀ (closes : List ℚ) (s l : ℤ), 0 ≤ s → 0 ≤ l → (s = 0 ∨ l = 0) →
        SmaSignalRunner.compute_signal closes s l = .ok "HOLD")
    ∧ (∀ (closes : List ℚ) (s l : ℤ), (s < 0 ∨ l < 0) →
        ¬ (closes.isEmpty = true ∨ (closes.length : ℤ) < max s l) →
        SmaSignalRunner.compute_signal closes s l
          = .error "ValueError: window must be an integer 0 or greater")
    ∧ (∀ cells : List (Option ℚ),
        rollMeanCells cells 0 = List.replicate cells.length none) := by
  refine ⟨?_, ?_, ?_, ?_⟩
  · intro closes n hn
    by_cases hg : closes.isEmpty = true ∨ (closes.length : ℤ) < max n n
    · exact compute_signal_guard_hold closes n n hg
    · unfold SmaSignalRunner.compute_signal
      rw [if_neg hg, if_neg (by omega : ¬ (n < 0 ∨ n < 0))]
      dsimp only
      by_cases h2 : (alignedRows closes n.toNat n.toNat).length < 2
      · rw [if_pos h2]
      · rw [if_neg h2]
        rw [List.getD_eq_getElem _ _ (by omega), List.getD_eq_getElem _ _ (by omega)]
        have hp := alignedRows_self closes n.toNat _
          (List.getElem_mem
            (l := alignedRows closes n.toNat n.toNat)
            (n := (alignedRows closes n.toNat n.toNat).length - 2) (by omega))
        have hq := alignedRows_self closes n.toNat _
          (List.getElem_mem
            (l := alignedRows closes n.toNat n.toNat)
            (n := (alignedRows closes n.toNat n.toNat).length - 1) (by omega))
        rw [hp, hq, crossoverSignal_diag]
  · intro closes s l hs hl h0
    by_cases hg : closes.isEmpty = true ∨ (closes.length : ℤ) < max s l
    · exact compute_signal_guard_hold closes s l hg
    · unfold SmaSignalRunner.compute_signal
      rw [if_neg hg, if_neg (by omega : ¬ (s < 0 ∨ l < 0))]
      dsimp only
      have hnil := alignedRows_eq_nil_of_zero closes s.toNat l.toNat (by omega)
      rw [if_pos (by rw [hnil]; simp)]
  · intro closes s l hneg hg
    unfold SmaSignalRunner.compute_signal
    rw [if_neg hg, if_pos hneg]
  · intro cells
    unfold rollMeanCells
    rw [show (fun i => if 1 ≤ 0 ∧ 0 ≤ i + 1 then
          (let w := (cells.take (i + 1)).drop (i + 1 - 0);
           if w.all Option.isSome then some ((w.reduceOption).sum / ((0 : ℕ) : ℚ)) else none)
        else none) = (fun i : ℕ => (none : Option ℚ)) from by
      funext i
      rw [if_neg (by omega : ¬ (1 ≤ 0 ∧ 0 ≤ i + 1))]]
    simp

/-- Witness for C6 at concrete inputs: equal windows (1,1), a zero short
window, negative windows and a zero-window rolling mean. -/
theorem C6_degenerate_windows_witness :
    SmaSignalRunner.compute_signal [1, 2] 1 1 = .ok "HOLD"
      ∧ SmaSignalRunner.compute_signal [1, 2, 3] 0 2 = .ok "HOLD"
      ∧ SmaSignalRunner.compute_signal [7] (-2) 1
          = .error "ValueError: window must be an integer 0 or greater"
      ∧ rollMeanCells [some 1] 0 = List.replicate 1 none :=
  ⟨C6_degenerate_windows.1 [1, 2] 1 (by decide),
   C6_degenerate_windows.2.1 [1, 2, 3] 0 2 (by decide) (by decide) (Or.inl rfl),
   C6_degenerate_windows.2.2.1 [7] (-2) 1 (Or.inl (by decide)) (by decide),
   C6_degenerate_windows.2.2.2 [some 1]⟩

/-- Claim C10: with `long ≥ short ≥ 1`, a series of length exactly
`max(short, long) = long` passes the insufficient-data length guard but
yields exactly one aligned point, so the engine returns HOLD; BUY or
SELL therefore requires at least `max(short, long) + 1` bars. -/
theorem C10_minimum_length :
    (∀ (closes : List ℚ) (s l : ℤ), 1 ≤ s → s ≤ l → (closes.length : ℤ) = l →
        ¬ (closes.isEmpty = true ∨ (closes.length : ℤ) < max s l)
        ∧ (alignedRows closes s.toNat l.toNat).length = 1
        ∧ SmaSignalRunner.compute_signal closes s l = .ok "HOLD")
    ∧ (∀ (closes : List ℚ) (s l : ℤ), 1 ≤ s → s ≤ l →
        (SmaSignalRunner.compute_signal closes s l = .ok "BUY"
          ∨ SmaSignalRunner.compute_signal closes s l = .ok "SELL") →
        l + 1 ≤ (closes.length : ℤ)) := by
  constructor
  · intro closes s l hs hsl hlen
    exact exact_window_hold closes s l hs hsl hlen
  · intro closes s l hs hsl hsig
    by_contra hlen
    have hle : (closes.length : ℤ) ≤ l := by omega
    have hhold : SmaSignalRunner.compute_signal closes s l = .ok "HOLD" := by
      rcases lt_or_eq_of_le hle with hlt | heq
      · apply compute_signal_guard_hold
        right
        rw [max_eq_right hsl]
        exact hlt
      · exact (exact_window_hold closes s l hs hsl heq).2.2
    rcases hsig with hsig | hsig <;> rw [hsig] at hhold <;> simp at hhold

/-- Witness for C10: a 3-bar series with windows (2,3) — guard passed,
one aligned row, HOLD — and the BUY fixture `[1,1,3]` with windows
(1,2), whose length 3 indeed reaches `long + 1 = 3`. -/
theorem C10_minimum_length_witness :
    (¬ (([(1 : ℚ), 2, 3].isEmpty = true) ∨ (([(1 : ℚ), 2, 3].length : ℤ) < max 2 3))
      ∧ (alignedRows [(1 : ℚ), 2, 3] (2 : ℤ).toNat (3 : ℤ).toNat).length = 1
      ∧ SmaSignalRunner.compute_signal [1, 2, 3] 2 3 = .ok "HOLD")
    ∧ (2 : ℤ) + 1 ≤ (([(1 : ℚ), 1, 3].length : ℤ)) :=
  ⟨C10_minimum_length.1 [1, 2, 3] 2 3 (by decide) (by decide) (by decide),
   C10_minimum_length.2 [1, 1, 3] 1 2 (by decide) (by decide)
     (Or.inl (by with_unfolding_all decide))⟩

/-- Claim C9: with `long ≥ short ≥ 1` and at least `long + 1` bars, the
signal for a series coincides with the signal for just its last
`long + 1` bars: nothing before the minimal sufficient tail matters. -/
theorem C9_tail_window (closes : List ℚ) (s l : ℤ) (hs : 1 ≤ s) (hsl : s ≤ l)
    (hlen : l + 1 ≤ (closes.length : ℤ)) :
    SmaSignalRunner.compute_signal
        (closes.drop (closes.length - (l.toNat + 1))) s l
      = SmaSignalRunner.compute_signal closes s l := by
  have hs1 : 1 ≤ s.toNat := by omega
  have hl1 : 1 ≤ l.toNat := by omega
  have hsl1 : s.toNat ≤ l.toNat := by omega
  have hlenN : l.toNat + 1 ≤ closes.length := by omega
  have hmax : max s.toNat l.toNat = l.toNat := max_eq_right hsl1
  set d := closes.length - (l.toNat + 1) with hd
  have hdl : (closes.drop d).length = l.toNat + 1 := by
    rw [List.length_drop]
    omega
  have h2full : 2 ≤ (alignedRows closes s.toNat l.toNat).length := by
    rw [alignedRows_length closes s.toNat l.toNat hs1 hl1, hmax]
    omega
  have h2tail : 2 ≤ (alignedRows (closes.drop d) s.toNat l.toNat).length := by
    rw [alignedRows_length _ s.toNat l.toNat hs1 hl1, hmax, hdl]
    omega
  have hl : 1 ≤ l := le_trans hs hsl
  rw [compute_signal_char (closes.drop d) s l hs hl h2tail,
      compute_signal_char closes s l hs hl h2full, hdl]
  rw [show l.toNat + 1 - 2 = l.toNat - 1 from by omega,
      show l.toNat + 1 - 1 = l.toNat from by omega]
  rw [smaAt_drop closes d s.toNat (l.toNat - 1) (by omega),
      smaAt_drop closes d l.toNat (l.toNat - 1) (by omega),
      smaAt_drop closes d s.toNat l.toNat (by omega),
      smaAt_drop closes d l.toNat l.toNat (by omega)]
  rw [show d + (l.toNat - 1) = closes.length - 2 from by omega,
      show d + l.toNat = closes.length - 1 from by omega]

/-- Witness for C9: dropping the leading bar of a 4-bar series (windows
1 and 2) leaves the 3-bar minimal tail with the same signal. -/
theorem C9_tail_window_witness :
    SmaSignalRunner.compute_signal [1, 1, 3] 1 2
      = SmaSignalRunner.compute_signal [9, 1, 1, 3] 1 2 :=
  C9_tail_window [9, 1, 1, 3] 1 2 (by decide) (by decide) (by decide)

/-- Counterexample to C3 as stated: fed two bars with windows (1,2), the
cited `algo_runner` boundary prints a bare error object with no `signal`
key (`compute_sma_signals` raised `IndexError` inside the `try`). -/
theorem C3_counterexample :
    (AlgoRunner.main_stdout (.ok ("AAPL", 1, 2, mkDF [1, 2]))).hasSignalKey
      = false := by
  with_unfolding_all decide

/-- Claim C3 (amended): the `sma_signal_runner` boundary always prints one
of BUY, SELL, HOLD and lets no exception escape, whatever was read from
stdin; the `algo_runner` boundary also absorbs every exception, but on the
exception path it prints only an error string and omits the signal. -/
theorem C3_boundary_signal :
    (∀ input : Except String (ℤ × ℤ × DataFrame),
        SmaSignalRunner.main_stdout input = "BUY"
          ∨ SmaSignalRunner.main_stdout input = "SELL"
          ∨ SmaSignalRunner.main_stdout input = "HOLD")
    ∧ (∀ (symbol : String) (s l : ℤ) (df : DataFrame) (e : String),
        df.isUnpopulated = false →
        (AlgoRunner.compute_sma_signals_df df s l).1 = .error e →
        AlgoRunner.main_stdout (.ok (symbol, s, l, df)) = .errorOnly e) := by
  constructor
  · intro input
    cases input with
    | error e =>
      right; right
      rfl
    | ok p =>
      obtain ⟨s, l, df⟩ := p
      simp only [SmaSignalRunner.main_stdout]
      by_cases hc : df.hasCol "close"
      · rw [if_neg (by simpa using hc)]
        cases h : (SmaSignalRunner.compute_signal_df df s l).1 with
        | ok sig =>
          simpa using compute_signal_df_ok_mem df s l sig h
        | error e =>
          right; right
          rfl
      · rw [if_pos (by simpa using hc)]
        right; right
        rfl
  · intro symbol s l df e hpop herr
    simp only [AlgoRunner.main_stdout]
    rw [if_neg (by simp [hpop]), herr]

/-- Witness for C3: a failed stdin parse prints HOLD through the runner
boundary, and a 3-bar frame with windows (2,3) drives the `algo_runner`
boundary to the signal-less error object. -/
theorem C3_boundary_signal_witness :
    (SmaSignalRunner.main_stdout (.error "Expecting value: line 1 column 1") = "BUY"
      ∨ SmaSignalRunner.main_stdout (.error "Expecting value: line 1 column 1") = "SELL"
      ∨ SmaSignalRunner.main_stdout (.error "Expecting value: line 1 column 1") = "HOLD")
    ∧ AlgoRunner.main_stdout (.ok ("MSFT", 2, 3, mkDF [1, 2, 3]))
        = .errorOnly "IndexError: single positional indexer is out-of-bounds" :=
  ⟨C3_boundary_signal.1 (.error "Expecting value: line 1 column 1"),
   C3_boundary_signal.2 "MSFT" 2 3 (mkDF [1, 2, 3]) _ (by decide)
     (by with_unfolding_all decide)⟩

/-- Counterexample to C8 as stated: the `algo_runner` engine adds the two
SMA columns to the very frame the caller passed in — after the call the
1-column frame of the caller has 3 columns. -/
theorem C8_counterexample :
    (AlgoRunner.compute_sma_signals_df (mkDF [1, 2, 3]) 1 2).2.colNames
        = ["close", "SMA_SHORT", "SMA_LONG"]
      ∧ (AlgoRunner.compute_sma_signals_df (mkDF [1, 2, 3]) 1 2).2
          ≠ mkDF [1, 2, 3] := by
  with_unfolding_all decide

/-- Claim C8 (amended): the `sma_signal_runner` engine copies before
assigning, so the frame of the caller is returned unchanged on every
path and nothing is retained between invocations; but the `algo_runner`
variant (and the `main.py` variant, which shares the assignment pattern)
assigns the SMA columns on the frame the caller passed in, which thus
comes back with SMA_SHORT and SMA_LONG added whenever the guard passes. -/
theorem C8_frame_effects :
    (∀ (df : DataFrame) (s l : ℤ),
        (SmaSignalRunner.compute_signal_df df s l).2 = df)
    ∧ (∀ (df : DataFrame) (s l : ℤ) (cells : List (Option ℚ)),
        df.getCol "close" = some cells →
        ¬ (df.isUnpopulated = true ∨ (df.nRows : ℤ) < l) →
        0 ≤ s → 0 ≤ l →
        (AlgoRunner.compute_sma_signals_df df s l).2
          = (df.setCol "SMA_SHORT" (rollMeanCells cells s.toNat)).setCol
              "SMA_LONG" (rollMeanCells cells l.toNat)) :=
  ⟨compute_signal_df_frame, algo_runner_mutation⟩

/-- Witness for C8: the runner call hands back the 2-bar frame intact,
and the `algo_runner` call on a 3-bar frame hands back the frame with
both SMA columns assigned. -/
theorem C8_frame_effects_witness :
    (SmaSignalRunner.compute_signal_df (mkDF [4, 5]) 5 15).2 = mkDF [4, 5]
      ∧ (AlgoRunner.compute_sma_signals_df (mkDF [1, 2, 3]) 1 2).2
          = ((mkDF [1, 2, 3]).setCol "SMA_SHORT"
                (rollMeanCells ([(1 : ℚ), 2, 3].map some) (1 : ℤ).toNat)).setCol
              "SMA_LONG" (rollMeanCells ([(1 : ℚ), 2, 3].map some) (2 : ℤ).toNat) :=
  ⟨C8_frame_effects.1 (mkDF [4, 5]) 5 15,
   C8_frame_effects.2 (mkDF [1, 2, 3]) 1 2 ([(1 : ℚ), 2, 3].map some) rfl
     (by decide) (by decide) (by decide)⟩
